import Mathlib

/-!
Shallow embedding of the `magnet-pve` game core (src/main.rs) and proofs of
the specification claims about it.  Scalar arithmetic of the source (`f32`)
is idealised as real arithmetic; the IEEE special values (infinity, NaN)
that matter for the zero-distance force-field claim are modelled separately
by the type `F` below.  Positions (`Transform::translation`) are `Vec3` as
in the source; velocities are `Vec2`.
-/

namespace MagnetPve

open scoped Classical ENNReal

/-- 2D real vector, embedding `glam::Vec2`. -/
structure Vec2 where
  x : ℝ
  y : ℝ

/-- 3D real vector, embedding `glam::Vec3` (used for `Transform::translation`). -/
structure Vec3 where
  x : ℝ
  y : ℝ
  z : ℝ

instance : Sub Vec2 := ⟨fun a b => ⟨a.x - b.x, a.y - b.y⟩⟩

instance : Add Vec2 := ⟨fun a b => ⟨a.x + b.x, a.y + b.y⟩⟩

instance : Sub Vec3 := ⟨fun a b => ⟨a.x - b.x, a.y - b.y, a.z - b.z⟩⟩

instance : Add Vec3 := ⟨fun a b => ⟨a.x + b.x, a.y + b.y, a.z + b.z⟩⟩

/-- Length of a 2D vector: `self.dot(self).sqrt()`. -/
noncomputable def Vec2.length (v : Vec2) : ℝ :=
  Real.sqrt (v.x * v.x + v.y * v.y)

/-- Euclidean distance between two 2D points: `(self - rhs).length()`. -/
noncomputable def Vec2.distance (p q : Vec2) : ℝ :=
  (p - q).length

/-- Length of a 3D vector: `self.dot(self).sqrt()`. -/
noncomputable def Vec3.length (v : Vec3) : ℝ :=
  Real.sqrt (v.x * v.x + v.y * v.y + v.z * v.z)

/-- Normalisation: `self * self.length().recip()` (glam).  Over ℝ the
reciprocal of `0` is `0`, so `normalize 0 = 0` here; the IEEE behaviour at
length `0` is treated in the `F` model below. -/
noncomputable def Vec3.normalize (v : Vec3) : Vec3 :=
  let r := 1 / v.length
  ⟨v.x * r, v.y * r, v.z * r⟩

/-- Drop the `z` coordinate: `Vec3::truncate`. -/
def Vec3.truncate (v : Vec3) : Vec2 :=
  ⟨v.x, v.y⟩

/-! Constants from the top of `src/main.rs`. -/

noncomputable def TIME_STEP : ℝ := 1.0 / 60.0

noncomputable def PLAYER_SIZE : Vec3 := ⟨30.0, 30.0, 0.0⟩

noncomputable def PLAYER_SPEED : ℝ := 300.0

noncomputable def ENEMY_SPEED : ℝ := 150.0

noncomputable def PLAYER_PADDING : ℝ := 10.0

noncomputable def WALL_THICKNESS : ℝ := 10.0

noncomputable def LEFT_WALL : ℝ := -450.0

noncomputable def RIGHT_WALL : ℝ := 450.0

noncomputable def BOTTOM_WALL : ℝ := -300.0

noncomputable def TOP_WALL : ℝ := 300.0

noncomputable def ENEMY_SIZE : Vec2 := ⟨20.0, 20.0⟩

noncomputable def MAGNET_RADIUS : ℝ := 200.0

noncomputable def MAGNET_FORCE : ℝ := 50.0

noncomputable def VELOCITY_DRAG : ℝ := 0.99

noncomputable def WEAPON_RADIUS : ℝ := MAGNET_RADIUS / 2.0

noncomputable def DAMAGE : ℝ := 10.0

noncomputable def PLAYER_HEALTH : ℝ := 100.0

noncomputable def ENEMY_HEALTH : ℝ := 10.0

def EXPLOSION_LEN : ℕ := 16

/-- RGB colour, embedding `bevy::Color::rgb`. -/
structure Color where
  r : ℝ
  g : ℝ
  b : ℝ

noncomputable def ENEMY_COLOR : Color := ⟨0.5, 0.5, 1.0⟩

noncomputable def ENEMY_PULL_COLOR : Color := ⟨1.0, 0.5, 0.5⟩

noncomputable def ENEMY_PUSH_COLOR : Color := ⟨0.5, 1.0, 0.5⟩

/-- `point_in_radius` (main.rs:333): true when the distance from `point`
to `center` is strictly less than `radius`. -/
noncomputable def point_in_radius (point : Vec2) (center : Vec2) (radius : ℝ) : Prop :=
  let distance := point.distance center
  distance < radius

/-- Health component `Hp { current: i32, max: i32 }` (main.rs:107). -/
structure Hp where
  current : ℤ
  max : ℤ

/-- The components of one enemy entity: sprite colour, transform
translation, velocity and health. -/
structure EnemyState where
  color : Color
  translation : Vec3
  vel : Vec2
  hp : Hp

/-- The pull/push direction of `pull_push_enemy` (main.rs:467-472): towards
the player for pull, away from the player for push. -/
noncomputable def magnet_direction (player_translation e_translation : Vec3)
    (is_push : Bool) : Vec3 :=
  if is_push then e_translation - player_translation
  else player_translation - e_translation

/-- The target speed of `pull_push_enemy` (main.rs:476-477): the base enemy
speed plus the hyperbolic falloff term. -/
noncomputable def magnet_target_speed (distance : ℝ) : ℝ :=
  let additional_speed := MAGNET_FORCE * (MAGNET_RADIUS / distance)
  ENEMY_SPEED + additional_speed

/-- The per-axis velocity targets of `pull_push_enemy` (main.rs:473-479). -/
noncomputable def magnet_target (player_translation e_translation : Vec3)
    (is_push : Bool) : Vec2 :=
  let direction := magnet_direction player_translation e_translation is_push
  let distance := direction.length
  let normalized_direction := direction.normalize
  let target_speed := magnet_target_speed distance
  ⟨normalized_direction.x * target_speed * VELOCITY_DRAG,
    normalized_direction.y * target_speed * VELOCITY_DRAG⟩

/-- The x-axis write condition of `pull_push_enemy` (main.rs:481): the
projected x position stays strictly inside the arena. -/
noncomputable def magnet_writes_x (player_translation e_translation : Vec3)
    (is_push : Bool) : Prop :=
  let target_x := (magnet_target player_translation e_translation is_push).x
  e_translation.x + target_x > LEFT_WALL ∧ e_translation.x + target_x < RIGHT_WALL

/-- The y-axis write condition of `pull_push_enemy` (main.rs:485). -/
noncomputable def magnet_writes_y (player_translation e_translation : Vec3)
    (is_push : Bool) : Prop :=
  let target_y := (magnet_target player_translation e_translation is_push).y
  e_translation.y + target_y > BOTTOM_WALL ∧ e_translation.y + target_y < TOP_WALL

/-- `pull_push_enemy` (main.rs:451): early-returns when the enemy is not
strictly inside `MAGNET_RADIUS`; otherwise computes the (pull or push)
direction, the hyperbolic-falloff target speed, and writes each velocity
axis only when the projected position along that axis stays strictly inside
the arena; sets the pull/push colour when at least one axis was written. -/
noncomputable def pull_push_enemy (player_translation : Vec3) (e : EnemyState)
    (is_push : Bool) : EnemyState :=
  if ¬ point_in_radius e.translation.truncate player_translation.truncate MAGNET_RADIUS then
    e
  else
    let target := magnet_target player_translation e.translation is_push
    let write_x : Prop := magnet_writes_x player_translation e.translation is_push
    let write_y : Prop := magnet_writes_y player_translation e.translation is_push
    let vx := if write_x then target.x else e.vel.x
    let vy := if write_y then target.y else e.vel.y
    let moved : Prop := write_x ∨ write_y
    if moved then
      { e with
        vel := ⟨vx, vy⟩
        color := if is_push then ENEMY_PUSH_COLOR else ENEMY_PULL_COLOR }
    else
      { e with vel := ⟨vx, vy⟩ }

/-- Keyboard/mouse state read by the systems in one tick: `pressed` is the
held state, `just_pressed` the edge state of this frame. -/
structure InputState where
  q_pressed : Bool
  e_pressed : Bool
  left_pressed : Bool
  right_pressed : Bool
  up_pressed : Bool
  down_pressed : Bool
  mouse_left_just_pressed : Bool
  space_just_pressed : Bool

/-- The player state the systems touch: sprite flip flag and translation. -/
structure PlayerState where
  flip_y : Bool
  translation : Vec3

/-- `magnet` (main.rs:413): resets every enemy colour, then (when Q is
held) applies the pull update to every enemy and (when E is held) applies
the push update to every enemy — both loops run when both keys are held. -/
noncomputable def magnet (input : InputState) (player : PlayerState)
    (enemies : List EnemyState) : PlayerState × List EnemyState :=
  let enemies := enemies.map fun e => { e with color := ENEMY_COLOR }
  let player := { player with flip_y := input.q_pressed }
  let enemies :=
    if input.q_pressed then
      enemies.map fun e => pull_push_enemy player.translation e false
    else enemies
  let enemies :=
    if input.e_pressed then
      enemies.map fun e => pull_push_enemy player.translation e true
    else enemies
  (player, enemies)

/-- `DAMAGE as i32`: the `f32` damage constant truncated to `i32`. -/
noncomputable def DAMAGE_AS_I32 : ℤ := Int.floor DAMAGE

/-- One iteration of the `combat` loop body (main.rs:351-369) for a single
enemy.  Returns the surviving enemy (`none` when despawned), the score
increment, and the list of `ExplosionToSpawn` translations created. -/
noncomputable def combat_enemy_step (trigger : Bool) (player_position : Vec2)
    (e : EnemyState) : Option EnemyState × ℕ × List Vec3 :=
  let enemy_position := e.translation.truncate
  let distance := player_position.distance enemy_position
  if distance ≤ WEAPON_RADIUS ∧ trigger then
    let current := e.hp.current - DAMAGE_AS_I32
    if current ≤ 0 then
      (none, 1, [e.translation])
    else
      (some { e with hp := { e.hp with current := current } }, 0, [])
  else
    (some e, 0, [])

/-- The combat trigger condition of main.rs:357-358: left mouse button just
pressed, or the space key just pressed. -/
def combat_trigger (input : InputState) : Bool :=
  input.mouse_left_just_pressed || input.space_just_pressed

/-- The condition under which one `combat` iteration kills its enemy
(main.rs:355-363): in weapon range, trigger fired, and the decremented
health is ≤ 0. -/
noncomputable def combat_kills (trigger : Bool) (player_position : Vec2)
    (e : EnemyState) : Prop :=
  player_position.distance e.translation.truncate ≤ WEAPON_RADIUS ∧ trigger ∧
    e.hp.current - DAMAGE_AS_I32 ≤ 0

/-- The `combat` loop over all enemies, in iteration order.  Despawns issued
through `Commands` are deferred in bevy to the end of the stage; since no
later system of the stage reads enemy health or the score, applying the
removal inside the fold is observationally identical at tick end. -/
noncomputable def combat_loop (trigger : Bool) (player_position : Vec2) :
    List EnemyState → List EnemyState × ℕ × List Vec3
  | [] => ([], 0, [])
  | e :: rest =>
    let step := combat_enemy_step trigger player_position e
    let tail := combat_loop trigger player_position rest
    (step.1.toList ++ tail.1, step.2.1 + tail.2.1, step.2.2 ++ tail.2.2)

/-- `combat` (main.rs:339): resolves hits for every enemy against the single
player and adds the kill count to the scoreboard. -/
noncomputable def combat (input : InputState) (player_translation : Vec3)
    (enemies : List EnemyState) (score : ℕ) :
    List EnemyState × ℕ × List Vec3 :=
  let player_position := player_translation.truncate
  let r := combat_loop (combat_trigger input) player_position enemies
  (r.1, score + r.2.1, r.2.2)

/-- Rust `f32::clamp(min, max)`: below `min` gives `min`, above `max` gives
`max`, otherwise the value itself (`min ≤ max` holds for the player bounds). -/
noncomputable def fclamp (x lo hi : ℝ) : ℝ :=
  if x < lo then lo else if x > hi then hi else x

noncomputable def left_bound : ℝ :=
  LEFT_WALL + WALL_THICKNESS / 2.0 + PLAYER_SIZE.x / 2.0 + PLAYER_PADDING

noncomputable def right_bound : ℝ :=
  RIGHT_WALL - WALL_THICKNESS / 2.0 - PLAYER_SIZE.x / 2.0 - PLAYER_PADDING

noncomputable def bottom_bound : ℝ :=
  BOTTOM_WALL + WALL_THICKNESS / 2.0 + PLAYER_SIZE.y / 2.0 + PLAYER_PADDING

noncomputable def top_bound : ℝ :=
  TOP_WALL - WALL_THICKNESS / 2.0 - PLAYER_SIZE.y / 2.0 - PLAYER_PADDING

/-- `move_player` (main.rs:500): accumulate the axis contributions of the
held arrow keys, advance by `direction * PLAYER_SPEED * TIME_STEP`, then
clamp each axis to the arena bounds. -/
noncomputable def move_player (input : InputState) (player_translation : Vec3) : Vec3 :=
  let direction_x : ℝ :=
    (if input.left_pressed then -1.0 else 0.0) +
      (if input.right_pressed then 1.0 else 0.0)
  let direction_y : ℝ :=
    (if input.up_pressed then 1.0 else 0.0) +
      (if input.down_pressed then -1.0 else 0.0)
  let new_player_pos_x := player_translation.x + direction_x * PLAYER_SPEED * TIME_STEP
  let new_player_pos_y := player_translation.y + direction_y * PLAYER_SPEED * TIME_STEP
  ⟨fclamp new_player_pos_x left_bound right_bound,
    fclamp new_player_pos_y bottom_bound top_bound,
    player_translation.z⟩

/-- `apply_velocity` (main.rs:561) for one entity. -/
noncomputable def apply_velocity (t : Vec3) (v : Vec2) : Vec3 :=
  ⟨t.x + v.x * TIME_STEP, t.y + v.y * TIME_STEP, t.z⟩

/-- Side classification returned by the engine's AABB test. -/
inductive Collision where
  | Left
  | Right
  | Top
  | Bottom
  | Inside
deriving DecidableEq

/-- Modelled from the engine (`bevy_sprite::collide_aabb::collide`, bevy 0.8),
which the repository calls but does not define: AABB overlap test returning
the side of `b` that `a` hit, picking between the x and y classification by
the larger penetration depth.  The source stores negative depths with
`-f32::INFINITY` for the `Inside` case and compares `y_depth.abs() >
x_depth.abs()`; here the absolute depth is kept directly in `ℝ≥0∞` with `⊤`
for the infinite case, which compares identically. -/
noncomputable def collide (a_pos : Vec3) (a_size : Vec2) (b_pos : Vec3) (b_size : Vec2) :
    Option Collision :=
  let a_min : Vec2 := ⟨a_pos.x - a_size.x / 2.0, a_pos.y - a_size.y / 2.0⟩
  let a_max : Vec2 := ⟨a_pos.x + a_size.x / 2.0, a_pos.y + a_size.y / 2.0⟩
  let b_min : Vec2 := ⟨b_pos.x - b_size.x / 2.0, b_pos.y - b_size.y / 2.0⟩
  let b_max : Vec2 := ⟨b_pos.x + b_size.x / 2.0, b_pos.y + b_size.y / 2.0⟩
  if a_min.x < b_max.x ∧ a_max.x > b_min.x ∧ a_min.y < b_max.y ∧ a_max.y > b_min.y then
    let xc : Collision × ℝ≥0∞ :=
      if a_min.x < b_min.x ∧ a_max.x > b_min.x ∧ a_max.x < b_max.x then
        (Collision.Left, ENNReal.ofReal |b_min.x - a_max.x|)
      else if a_min.x > b_min.x ∧ a_min.x < b_max.x ∧ a_max.x > b_max.x then
        (Collision.Right, ENNReal.ofReal |a_min.x - b_max.x|)
      else
        (Collision.Inside, ⊤)
    let yc : Collision × ℝ≥0∞ :=
      if a_min.y < b_min.y ∧ a_max.y > b_min.y ∧ a_max.y < b_max.y then
        (Collision.Bottom, ENNReal.ofReal |b_min.y - a_max.y|)
      else if a_min.y > b_min.y ∧ a_min.y < b_max.y ∧ a_max.y > b_max.y then
        (Collision.Top, ENNReal.ofReal |a_min.y - b_max.y|)
      else
        (Collision.Inside, ⊤)
    if yc.2 > xc.2 then some xc.1 else some yc.1
  else
    none

/-- The bounce response of `check_for_collisions` (main.rs:586-609): reflect
a velocity axis only when it points into the surface whose side was hit. -/
noncomputable def collision_response (c : Collision) (v : Vec2) : Vec2 :=
  let reflect_x : Prop :=
    match c with
    | Collision.Left => v.x > 0.0
    | Collision.Right => v.x < 0.0
    | Collision.Top => False
    | Collision.Bottom => False
    | Collision.Inside => False
  let reflect_y : Prop :=
    match c with
    | Collision.Left => False
    | Collision.Right => False
    | Collision.Top => v.y < 0.0
    | Collision.Bottom => v.y > 0.0
    | Collision.Inside => False
  ⟨if reflect_x then -v.x else v.x, if reflect_y then -v.y else v.y⟩

/-- A collider as read by `check_for_collisions`: its translation and
`transform.scale.truncate()`. -/
structure ColliderView where
  translation : Vec3
  scale2 : Vec2

/-- One inner iteration of `check_for_collisions`: test the enemy against a
single collider and apply the bounce response on overlap. -/
noncomputable def check_enemy_collider (e_translation : Vec3) (v : Vec2)
    (c : ColliderView) : Vec2 :=
  match collide e_translation ENEMY_SIZE c.translation c.scale2 with
  | none => v
  | some collision => collision_response collision v

/-- The full inner loop of `check_for_collisions` for one enemy: the
velocity after testing against every collider in order. -/
noncomputable def check_for_collisions_one (colliders : List ColliderView)
    (e_translation : Vec3) (v : Vec2) : Vec2 :=
  colliders.foldl (check_enemy_collider e_translation) v

/-- Fixed period of `ExplosionTimer::default()` (main.rs:120): a repeating
0.05 s timer. -/
noncomputable def EXPLOSION_PERIOD : ℝ := 0.05

/-- Explosion animation state: the repeating timer's elapsed time and the
`TextureAtlasSprite` index (0 when the sprite sheet entity is spawned). -/
structure ExplosionState where
  elapsed : ℝ
  index : ℕ

/-- Modelled from the engine (bevy `Timer::tick` for a repeating timer):
accumulate `delta`; when the total reaches the period, report finished
together with the number of whole periods completed this tick and wrap the
remainder.  Returns (new elapsed, finished, periods completed this tick). -/
noncomputable def timer_tick (elapsed delta : ℝ) : ℝ × Bool × ℕ :=
  let total := elapsed + delta
  if total ≥ EXPLOSION_PERIOD then
    let times := (Int.floor (total / EXPLOSION_PERIOD)).toNat
    (total - EXPLOSION_PERIOD * times, true, times)
  else
    (total, false, 0)

/-- `explosion_animation_system` (main.rs:397) for one explosion entity:
tick the timer; when it finished this frame, increment the sprite index by
one and despawn (`none`) as soon as the index reaches `EXPLOSION_LEN`. -/
noncomputable def explosion_animation_step (delta : ℝ) (s : ExplosionState) :
    Option ExplosionState :=
  let t := timer_tick s.elapsed delta
  if t.2.1 then
    let index := s.index + 1
    if index ≥ EXPLOSION_LEN then none
    else some ⟨t.1, index⟩
  else
    some ⟨t.1, s.index⟩

/-- Repeated frames of `explosion_animation_system` for one explosion
entity, fed the per-frame time deltas in order; `none` once despawned. -/
noncomputable def explosion_run (deltas : List ℝ) (s : ExplosionState) :
    Option ExplosionState :=
  deltas.foldl (fun acc d => acc.bind (explosion_animation_step d)) (some s)

/-- An IEEE-style scalar for the zero-distance force-field analysis: a
finite value (its rounding idealised away), one of the two infinities, or
NaN.  Signed zero is not distinguished; the coincident-position path only
produces positive zeros. -/
inductive F where
  | fin : ℝ → F
  | pinf : F
  | ninf : F
  | nan : F

/-- IEEE addition on `F` (NaN absorbs; ∞ + (−∞) = NaN). -/
noncomputable def F.add : F → F → F
  | fin a, fin b => fin (a + b)
  | fin _, pinf => pinf
  | fin _, ninf => ninf
  | pinf, fin _ => pinf
  | ninf, fin _ => ninf
  | pinf, pinf => pinf
  | ninf, ninf => ninf
  | _, _ => nan

/-- IEEE multiplication on `F` (NaN absorbs; 0 · ∞ = NaN). -/
noncomputable def F.mul : F → F → F
  | fin a, fin b => fin (a * b)
  | fin a, pinf => if a = 0 then nan else if a > 0 then pinf else ninf
  | fin a, ninf => if a = 0 then nan else if a > 0 then ninf else pinf
  | pinf, fin b => if b = 0 then nan else if b > 0 then pinf else ninf
  | ninf, fin b => if b = 0 then nan else if b > 0 then ninf else pinf
  | pinf, pinf => pinf
  | pinf, ninf => ninf
  | ninf, pinf => ninf
  | ninf, ninf => pinf
  | _, _ => nan

/-- IEEE division on `F` (x/0 is a signed infinity for x ≠ 0, 0/0 = NaN,
finite/∞ = 0, ∞/∞ = NaN). -/
noncomputable def F.div : F → F → F
  | fin a, fin b =>
    if b = 0 then (if a = 0 then nan else if a > 0 then pinf else ninf)
    else fin (a / b)
  | fin _, pinf => fin 0
  | fin _, ninf => fin 0
  | pinf, fin b => if b < 0 then ninf else pinf
  | ninf, fin b => if b < 0 then pinf else ninf
  | _, _ => nan

/-- IEEE subtraction on `F`. -/
noncomputable def F.sub : F → F → F
  | fin a, fin b => fin (a - b)
  | fin _, pinf => ninf
  | fin _, ninf => pinf
  | pinf, fin _ => pinf
  | ninf, fin _ => ninf
  | pinf, ninf => pinf
  | ninf, pinf => ninf
  | _, _ => nan

/-- IEEE strict less-than on `F`: any comparison with NaN is false. -/
def F.lt : F → F → Prop
  | fin a, fin b => a < b
  | fin _, pinf => True
  | ninf, fin _ => True
  | ninf, pinf => True
  | _, _ => False

/-- IEEE strict greater-than on `F`. -/
def F.gt (a b : F) : Prop := F.lt b a

/-- IEEE square root on `F` (negative finite arguments and −∞ give NaN). -/
noncomputable def F.sqrtF : F → F
  | fin a => if a < 0 then nan else fin (Real.sqrt a)
  | pinf => pinf
  | _ => nan

/-- 3D vector over the IEEE-style scalars. -/
structure FVec3 where
  x : F
  y : F
  z : F

noncomputable def FVec3.sub (a b : FVec3) : FVec3 :=
  ⟨a.x.sub b.x, a.y.sub b.y, a.z.sub b.z⟩

/-- `Vec3::length` over `F`: `self.dot(self).sqrt()`. -/
noncomputable def FVec3.length (v : FVec3) : F :=
  F.sqrtF (((v.x.mul v.x).add (v.y.mul v.y)).add (v.z.mul v.z))

/-- `Vec3::normalize` over `F`: `self * self.length().recip()`. -/
noncomputable def FVec3.normalize (v : FVec3) : FVec3 :=
  let r := (F.fin 1).div v.length
  ⟨v.x.mul r, v.y.mul r, v.z.mul r⟩

/-- 2D point over `F` (truncated translation). -/
structure FVec2 where
  x : F
  y : F

def FVec3.truncateF (v : FVec3) : FVec2 :=
  ⟨v.x, v.y⟩

/-- `Vec2::distance` over `F`. -/
noncomputable def FVec2.distance (p q : FVec2) : F :=
  F.sqrtF (((p.x.sub q.x).mul (p.x.sub q.x)).add ((p.y.sub q.y).mul (p.y.sub q.y)))

/-- `point_in_radius` over `F`. -/
noncomputable def point_in_radius_f (point center : FVec2) (radius : F) : Prop :=
  let distance := point.distance center
  distance.lt radius

/-- Enemy state over `F` for the magnet system. -/
structure FEnemyState where
  color : Color
  translation : FVec3
  vel : FVec2

/-- The (pull or push) direction of `pull_push_enemy` (main.rs:467-472)
over `F`. -/
noncomputable def magnet_direction_f (player_translation e_translation : FVec3)
    (is_push : Bool) : FVec3 :=
  if is_push then FVec3.sub e_translation player_translation
  else FVec3.sub player_translation e_translation

/-- The hyperbolic falloff term of `pull_push_enemy` (main.rs:476) over `F`. -/
noncomputable def magnet_additional_speed_f (distance : F) : F :=
  (F.fin MAGNET_FORCE).mul ((F.fin MAGNET_RADIUS).div distance)

/-- `pull_push_enemy` re-traced over the IEEE-style scalars, to settle what
happens when player and enemy positions coincide exactly. -/
noncomputable def pull_push_enemy_f (player_translation : FVec3) (e : FEnemyState)
    (is_push : Bool) : FEnemyState :=
  if ¬ point_in_radius_f e.translation.truncateF player_translation.truncateF
      (F.fin MAGNET_RADIUS) then
    e
  else
    let direction := magnet_direction_f player_translation e.translation is_push
    let distance := direction.length
    let normalized_direction := direction.normalize
    let additional_speed := magnet_additional_speed_f distance
    let target_speed := (F.fin ENEMY_SPEED).add additional_speed
    let target_x := (normalized_direction.x.mul target_speed).mul (F.fin VELOCITY_DRAG)
    let target_y := (normalized_direction.y.mul target_speed).mul (F.fin VELOCITY_DRAG)
    let write_x : Prop :=
      ((e.translation.x.add target_x).gt (F.fin LEFT_WALL)) ∧
        ((e.translation.x.add target_x).lt (F.fin RIGHT_WALL))
    let write_y : Prop :=
      ((e.translation.y.add target_y).gt (F.fin BOTTOM_WALL)) ∧
        ((e.translation.y.add target_y).lt (F.fin TOP_WALL))
    let vx := if write_x then target_x else e.vel.x
    let vy := if write_y then target_y else e.vel.y
    let moved : Prop := write_x ∨ write_y
    if moved then
      { e with
        vel := ⟨vx, vy⟩
        color := if is_push then ENEMY_PUSH_COLOR else ENEMY_PULL_COLOR }
    else
      { e with vel := ⟨vx, vy⟩ }

/-- `WallLocation` (main.rs:139). -/
inductive WallLocation where
  | Left
  | Right
  | Bottom
  | Top

/-- `WallLocation::position` (main.rs:147). -/
noncomputable def WallLocation.position : WallLocation → Vec2
  | WallLocation.Left => ⟨LEFT_WALL, 0.0⟩
  | WallLocation.Right => ⟨RIGHT_WALL, 0.0⟩
  | WallLocation.Bottom => ⟨0.0, BOTTOM_WALL⟩
  | WallLocation.Top => ⟨0.0, TOP_WALL⟩

/-- `WallLocation::size` (main.rs:156). -/
noncomputable def WallLocation.size : WallLocation → Vec2
  | WallLocation.Left | WallLocation.Right =>
    ⟨WALL_THICKNESS, (TOP_WALL - BOTTOM_WALL) + WALL_THICKNESS⟩
  | WallLocation.Bottom | WallLocation.Top =>
    ⟨(RIGHT_WALL - LEFT_WALL) + WALL_THICKNESS, WALL_THICKNESS⟩

/-- The collider view of a wall entity: translation `position.extend(0)`,
scale `size.extend(1)` truncated back to 2D (main.rs:183-187). -/
noncomputable def wall_collider (loc : WallLocation) : ColliderView :=
  ⟨⟨loc.position.x, loc.position.y, 0.0⟩, loc.size⟩

/-- The four wall colliders spawned in `setup` (main.rs:283-286). -/
noncomputable def wall_colliders : List ColliderView :=
  [wall_collider WallLocation.Left, wall_collider WallLocation.Right,
    wall_collider WallLocation.Bottom, wall_collider WallLocation.Top]

/-- Whole-world state threaded through one fixed-timestep tick: the single
player, the enemy entities, and the scoreboard. -/
structure World where
  player : PlayerState
  enemies : List EnemyState
  score : ℕ

/-- Every entity spawned with the `Collider` marker in `setup`, as seen by
`check_for_collisions`: the player (scale `PLAYER_SIZE`, main.rs:241,251),
the four walls, and every enemy (scale `(ENEMY_SIZE, 1)`, main.rs:312,323),
in spawn order. -/
noncomputable def world_colliders (w : World) : List ColliderView :=
  ⟨w.player.translation, PLAYER_SIZE.truncate⟩ ::
    wall_colliders ++ w.enemies.map fun e => ⟨e.translation, ENEMY_SIZE⟩

/-- `check_for_collisions` (main.rs:570) over the world: every enemy is
tested against every collider (the walls, the player, the other enemies and
itself); only velocities are written — the `Transform`s are read-only in
this system, and the `Scoreboard` resource, though requested mutably, is
never touched. -/
noncomputable def check_for_collisions (w : World) : World :=
  { w with
    enemies := w.enemies.map fun e =>
      { e with vel := check_for_collisions_one (world_colliders w) e.translation e.vel } }

/-- The `magnet` system over the world. -/
noncomputable def magnet_system (input : InputState) (w : World) : World :=
  let r := magnet input w.player w.enemies
  { w with player := r.1, enemies := r.2 }

/-- The `move_player` system over the world. -/
noncomputable def move_player_system (input : InputState) (w : World) : World :=
  { w with player := { w.player with translation := move_player input w.player.translation } }

/-- The `combat` system over the world; also returns the spawned
`ExplosionToSpawn` translations. -/
noncomputable def combat_system (input : InputState) (w : World) : World × List Vec3 :=
  let r := combat input w.player.translation w.enemies w.score
  ({ w with enemies := r.1, score := r.2.1 }, r.2.2)

/-- The `apply_velocity` system over the world: every entity with both a
`Transform` and a `Velocity` — the enemies; the player has no `Velocity`. -/
noncomputable def apply_velocity_system (w : World) : World :=
  { w with
    enemies := w.enemies.map fun e =>
      { e with translation := apply_velocity e.translation e.vel } }

/-- One fixed-timestep tick (main.rs:71-80).  The schedule orders `magnet`
before `move_player`, and `move_player`, `apply_velocity` and `combat` each
before `check_for_collisions`; this is the linearisation magnet,
move_player, combat, apply_velocity, check_for_collisions.  The score facts
below are independent of the linearisation because `combat` is the only
system that writes the score. -/
noncomputable def tick (input : InputState) (w : World) : World × List Vec3 :=
  let w1 := magnet_system input w
  let w2 := move_player_system input w1
  let r := combat_system input w2
  let w4 := apply_velocity_system r.1
  (check_for_collisions w4, r.2)

/-- Iterated ticks under an input stream (explosion translations dropped). -/
noncomputable def run_ticks (inputs : ℕ → InputState) (w : World) : ℕ → World
  | 0 => w
  | n + 1 => (tick (inputs n) (run_ticks inputs w n)).1

/-! Helper lemmas. -/

@[simp] theorem Vec2.sub_x_eq (a b : Vec2) : (a - b).x = a.x - b.x := rfl

@[simp] theorem Vec2.sub_y_eq (a b : Vec2) : (a - b).y = a.y - b.y := rfl

@[simp] theorem Vec3.sub_x (a b : Vec3) : (a - b).x = a.x - b.x := rfl

@[simp] theorem Vec3.sub_y (a b : Vec3) : (a - b).y = a.y - b.y := rfl

@[simp] theorem Vec3.sub_z (a b : Vec3) : (a - b).z = a.z - b.z := rfl

theorem Vec2.distance_def (p q : Vec2) :
    p.distance q =
      Real.sqrt ((p.x - q.x) * (p.x - q.x) + (p.y - q.y) * (p.y - q.y)) := rfl

theorem sqrt_eval (b : ℝ) {a : ℝ} (h : a = b ^ 2) (hb : 0 ≤ b) : Real.sqrt a = b := by
  rw [h, Real.sqrt_sq hb]

theorem Vec2.distance_mk (px py qx qy : ℝ) :
    Vec2.distance ⟨px, py⟩ ⟨qx, qy⟩ =
      Real.sqrt ((px - qx) * (px - qx) + (py - qy) * (py - qy)) := rfl

theorem Vec2.distance_eval (v : ℝ) {px py qx qy : ℝ}
    (h : (px - qx) * (px - qx) + (py - qy) * (py - qy) = v ^ 2) (hv : 0 ≤ v) :
    Vec2.distance ⟨px, py⟩ ⟨qx, qy⟩ = v := by
  rw [Vec2.distance_mk, sqrt_eval v h hv]

theorem DAMAGE_AS_I32_eq : DAMAGE_AS_I32 = 10 := by
  unfold DAMAGE_AS_I32 DAMAGE
  rw [show (10.0 : ℝ) = ((10 : ℤ) : ℝ) by norm_num, Int.floor_intCast]

theorem fclamp_mem (x lo hi : ℝ) (h : lo ≤ hi) :
    lo ≤ fclamp x lo hi ∧ fclamp x lo hi ≤ hi := by
  unfold fclamp
  split_ifs with h1 h2
  · exact ⟨le_rfl, h⟩
  · exact ⟨h, le_rfl⟩
  · exact ⟨le_of_not_lt h1, le_of_not_lt h2⟩

/-- Outside (or at) the magnet radius, `pull_push_enemy` returns the enemy
state unchanged. -/
theorem pull_push_enemy_eq_self (p : Vec3) (e : EnemyState) (is_push : Bool)
    (h : MAGNET_RADIUS ≤ e.translation.truncate.distance p.truncate) :
    pull_push_enemy p e is_push = e := by
  unfold pull_push_enemy
  rw [if_pos]
  exact not_lt.mpr h

/-- Element extraction through a `List.map` at the marked position. -/
theorem get?_map_append_cons {α β : Type} (f : α → β) (pre post : List α) (e : α) :
    ((pre ++ e :: post).map f).get? pre.length = some (f e) := by
  rw [List.map_append, List.get?_append_right (by simp)]
  simp

/-- Inside the magnet radius, the velocity written by `pull_push_enemy` is
the per-axis `magnet_target`, each axis gated by its arena-bound check. -/
theorem pull_push_enemy_vel_in_radius (p : Vec3) (e : EnemyState) (is_push : Bool)
    (h : point_in_radius e.translation.truncate p.truncate MAGNET_RADIUS) :
    (pull_push_enemy p e is_push).vel =
      ⟨if magnet_writes_x p e.translation is_push
          then (magnet_target p e.translation is_push).x else e.vel.x,
        if magnet_writes_y p e.translation is_push
          then (magnet_target p e.translation is_push).y else e.vel.y⟩ := by
  unfold pull_push_enemy
  rw [if_neg (not_not_intro h)]
  dsimp only
  split_ifs <;> rfl

/-- `pull_push_enemy` never moves the enemy. -/
theorem pull_push_enemy_translation (p : Vec3) (e : EnemyState) (is_push : Bool) :
    (pull_push_enemy p e is_push).translation = e.translation := by
  unfold pull_push_enemy
  dsimp only
  split_ifs <;> rfl

/-- The z component of the magnet direction vanishes when player and enemy
share the same z (always the case in the game: both are spawned at z = 0). -/
theorem magnet_direction_z (p eT : Vec3) (is_push : Bool) (hz : eT.z = p.z) :
    (magnet_direction p eT is_push).z = 0 := by
  unfold magnet_direction
  split_ifs <;> simp [hz]

/-- Norm of the written velocity: the normalized direction times target
speed times drag has length `VELOCITY_DRAG * target_speed`. -/
theorem magnet_target_length (p eT : Vec3) (is_push : Bool)
    (hz : eT.z = p.z) (hd : 0 < (magnet_direction p eT is_push).length) :
    (magnet_target p eT is_push).length =
      VELOCITY_DRAG * magnet_target_speed (magnet_direction p eT is_push).length := by
  have hzz : (magnet_direction p eT is_push).z = 0 := magnet_direction_z p eT is_push hz
  set dir := magnet_direction p eT is_push with hdir
  set d := dir.length with hdl
  have hx : 0 < MAGNET_RADIUS / d := div_pos (by norm_num [MAGNET_RADIUS]) hd
  have hT : 0 < magnet_target_speed d := by
    unfold magnet_target_speed
    have h2 : 0 < MAGNET_FORCE * (MAGNET_RADIUS / d) :=
      mul_pos (by norm_num [MAGNET_FORCE]) hx
    have h3 : (0 : ℝ) < ENEMY_SPEED := by norm_num [ENEMY_SPEED]
    linarith
  have hdrag : (0 : ℝ) < VELOCITY_DRAG := by norm_num [VELOCITY_DRAG]
  have hc : 0 ≤ 1 / d * magnet_target_speed d * VELOCITY_DRAG :=
    le_of_lt (mul_pos (mul_pos (one_div_pos.mpr hd) hT) hdrag)
  have hd2 : d = Real.sqrt (dir.x * dir.x + dir.y * dir.y) := by
    rw [hdl]
    unfold Vec3.length
    rw [hzz]
    ring_nf
  have hlen : (magnet_target p eT is_push).length =
      Real.sqrt
        ((dir.x * (1 / d) * magnet_target_speed d * VELOCITY_DRAG) *
            (dir.x * (1 / d) * magnet_target_speed d * VELOCITY_DRAG) +
          (dir.y * (1 / d) * magnet_target_speed d * VELOCITY_DRAG) *
            (dir.y * (1 / d) * magnet_target_speed d * VELOCITY_DRAG)) := rfl
  rw [hlen,
    show (dir.x * (1 / d) * magnet_target_speed d * VELOCITY_DRAG) *
          (dir.x * (1 / d) * magnet_target_speed d * VELOCITY_DRAG) +
        (dir.y * (1 / d) * magnet_target_speed d * VELOCITY_DRAG) *
          (dir.y * (1 / d) * magnet_target_speed d * VELOCITY_DRAG) =
      (dir.x * dir.x + dir.y * dir.y) *
        ((1 / d * magnet_target_speed d * VELOCITY_DRAG) *
          (1 / d * magnet_target_speed d * VELOCITY_DRAG)) from by ring,
    Real.sqrt_mul (by nlinarith [mul_self_nonneg dir.x, mul_self_nonneg dir.y]),
    Real.sqrt_mul_self hc, ← hd2]
  field_simp
  ring

/-- Evaluation of `magnet_target` at player `(0,0,0)`, enemy `(100,0,0)`,
pull: direction `(-100,0,0)`, distance 100, target speed 250, damped
components `(-247.5, 0)`. -/
theorem magnet_target_at_100 :
    magnet_target ⟨0, 0, 0⟩ ⟨100, 0, 0⟩ false = ⟨-247.5, 0⟩ := by
  have hsqrt : Real.sqrt
      (((0 : ℝ) - 100) * (0 - 100) + (0 - 0) * (0 - 0) + (0 - 0) * (0 - 0)) = 100 :=
    sqrt_eval 100 (by norm_num) (by norm_num)
  unfold magnet_target magnet_direction Vec3.normalize Vec3.length magnet_target_speed
  simp only [Bool.false_eq_true, if_false, Vec3.sub_x, Vec3.sub_y, Vec3.sub_z]
  rw [hsqrt]
  norm_num [ENEMY_SPEED, MAGNET_FORCE, MAGNET_RADIUS, VELOCITY_DRAG, Vec2.mk.injEq]

theorem point_in_radius_at_100 :
    point_in_radius (Vec3.truncate ⟨100, 0, 0⟩) (Vec3.truncate ⟨0, 0, 0⟩)
      MAGNET_RADIUS := by
  show Vec2.distance ⟨100, 0⟩ ⟨0, 0⟩ < MAGNET_RADIUS
  rw [Vec2.distance_eval 100 (by norm_num) (by norm_num)]
  norm_num [MAGNET_RADIUS]

theorem magnet_writes_x_at_100 : magnet_writes_x ⟨0, 0, 0⟩ ⟨100, 0, 0⟩ false := by
  unfold magnet_writes_x
  rw [magnet_target_at_100]
  show (100 : ℝ) + -247.5 > LEFT_WALL ∧ (100 : ℝ) + -247.5 < RIGHT_WALL
  norm_num [LEFT_WALL, RIGHT_WALL]

theorem magnet_writes_y_at_100 : magnet_writes_y ⟨0, 0, 0⟩ ⟨100, 0, 0⟩ false := by
  unfold magnet_writes_y
  rw [magnet_target_at_100]
  show (0 : ℝ) + 0 > BOTTOM_WALL ∧ (0 : ℝ) + 0 < TOP_WALL
  norm_num [BOTTOM_WALL, TOP_WALL]

theorem magnet_direction_length_at_100 :
    (magnet_direction ⟨0, 0, 0⟩ ⟨100, 0, 0⟩ false).length = 100 := by
  have hsqrt : Real.sqrt
      (((0 : ℝ) - 100) * (0 - 100) + (0 - 0) * (0 - 0) + (0 - 0) * (0 - 0)) = 100 :=
    sqrt_eval 100 (by norm_num) (by norm_num)
  unfold magnet_direction Vec3.length
  simp only [Bool.false_eq_true, if_false, Vec3.sub_x, Vec3.sub_y, Vec3.sub_z]
  exact hsqrt

/-! Claim theorems. -/

/-- C5: for every combination of held direction inputs and every starting
position, the player position after one `move_player` tick lies within
`[left_bound, right_bound] × [bottom_bound, top_bound]`, the arena walls
adjusted inward by half the wall thickness, half the player size, and the
fixed padding. -/
theorem move_player_clamp_invariant (input : InputState) (t : Vec3) :
    left_bound ≤ (move_player input t).x ∧ (move_player input t).x ≤ right_bound ∧
      bottom_bound ≤ (move_player input t).y ∧ (move_player input t).y ≤ top_bound := by
  have hx : left_bound ≤ right_bound := by
    simp only [left_bound, right_bound, LEFT_WALL, RIGHT_WALL, WALL_THICKNESS,
      PLAYER_SIZE, PLAYER_PADDING]
    norm_num
  have hy : bottom_bound ≤ top_bound := by
    simp only [bottom_bound, top_bound, BOTTOM_WALL, TOP_WALL, WALL_THICKNESS,
      PLAYER_SIZE, PLAYER_PADDING]
    norm_num
  exact ⟨(fclamp_mem _ _ _ hx).1, (fclamp_mem _ _ _ hx).2,
    (fclamp_mem _ _ _ hy).1, (fclamp_mem _ _ _ hy).2⟩

/-- C3: an enemy whose distance to the player is ≥ `MAGNET_RADIUS` is
returned unchanged by `pull_push_enemy` (pull or push), and across the whole
`magnet` system its velocity is exactly what it was before the system ran;
in particular at distance exactly the radius an active pull adds nothing. -/
theorem force_field_no_write_outside_radius (p : Vec3) (e : EnemyState)
    (h : MAGNET_RADIUS ≤ e.translation.truncate.distance p.truncate) :
    (∀ is_push : Bool, pull_push_enemy p e is_push = e) ∧
      ∀ (input : InputState) (player : PlayerState) (pre post : List EnemyState),
        player.translation = p →
        (((magnet input player (pre ++ e :: post)).2.get? pre.length).map
          EnemyState.vel) = some e.vel := by
  have hself : ∀ (c : Color) (is_push : Bool),
      pull_push_enemy p { e with color := c } is_push = { e with color := c } :=
    fun c is_push => pull_push_enemy_eq_self p _ is_push h
  constructor
  · exact fun is_push => pull_push_enemy_eq_self p e is_push h
  · intro input player pre post hp
    simp only [magnet, hp]
    split_ifs with hq he he
    · rw [List.map_map, List.map_map, get?_map_append_cons]
      simp [hself]
    · rw [List.map_map, get?_map_append_cons]
      simp [hself]
    · rw [List.map_map, get?_map_append_cons]
      simp [hself]
    · rw [get?_map_append_cons]
      simp

/-- Witness for the C3 theorem at player `(0,0,0)` and enemy `(200,0,0)`:
the distance equals the radius exactly and the enemy is unchanged. -/
theorem force_field_no_write_outside_radius_witness :
    pull_push_enemy ⟨0, 0, 0⟩
        ⟨ENEMY_COLOR, ⟨200, 0, 0⟩, ⟨0, 0⟩, ⟨10, 10⟩⟩ false =
      ⟨ENEMY_COLOR, ⟨200, 0, 0⟩, ⟨0, 0⟩, ⟨10, 10⟩⟩ := by
  have h : MAGNET_RADIUS ≤
      (Vec3.truncate ⟨200, 0, 0⟩).distance (Vec3.truncate ⟨0, 0, 0⟩) := by
    rw [show Vec3.truncate ⟨200, 0, 0⟩ = (⟨200, 0⟩ : Vec2) from rfl,
      show Vec3.truncate ⟨0, 0, 0⟩ = (⟨0, 0⟩ : Vec2) from rfl,
      Vec2.distance_eval 200 (by norm_num) (by norm_num)]
    norm_num [MAGNET_RADIUS]
  exact (force_field_no_write_outside_radius ⟨0, 0, 0⟩
    ⟨ENEMY_COLOR, ⟨200, 0, 0⟩, ⟨0, 0⟩, ⟨10, 10⟩⟩ h).1 false

/-- C1: in a tick where the player–enemy distance is ≤ `WEAPON_RADIUS` and a
trigger edge fired (left mouse button just pressed, or space just pressed),
the `combat` iteration for that enemy decreases its health by exactly
`DAMAGE as i32`; whenever the resulting health is ≤ 0 the enemy is
despawned, the score contribution is exactly one, and exactly one explosion
request carrying the enemy's position is created; otherwise the enemy
survives with the reduced health and no score or explosion is produced. -/
theorem combat_hit_resolution (input : InputState) (pp : Vec2) (e : EnemyState)
    (hd : pp.distance e.translation.truncate ≤ WEAPON_RADIUS)
    (ht : combat_trigger input = true) :
    (e.hp.current - DAMAGE_AS_I32 ≤ 0 →
        combat_enemy_step (combat_trigger input) pp e = (none, 1, [e.translation])) ∧
      (0 < e.hp.current - DAMAGE_AS_I32 →
        combat_enemy_step (combat_trigger input) pp e =
          (some { e with hp := { e.hp with current := e.hp.current - DAMAGE_AS_I32 } },
            0, [])) := by
  unfold combat_enemy_step
  rw [ht]
  constructor
  · intro hle
    rw [if_pos ⟨hd, rfl⟩, if_pos hle]
  · intro hgt
    rw [if_pos ⟨hd, rfl⟩, if_neg (not_le.mpr hgt)]

/-- Witness for the C1 theorem: player at the origin, enemy at `(60,80,0)`
(distance 100 = `WEAPON_RADIUS`), 10 health, left mouse just pressed: the
enemy is despawned, the score contribution is 1, one explosion is spawned at
the enemy position. -/
theorem combat_hit_resolution_witness :
    combat_enemy_step
        (combat_trigger ⟨false, false, false, false, false, false, true, false⟩)
        ⟨0, 0⟩ ⟨ENEMY_COLOR, ⟨60, 80, 0⟩, ⟨0, 0⟩, ⟨10, 10⟩⟩ =
      (none, 1, [⟨60, 80, 0⟩]) := by
  have hd : Vec2.distance ⟨0, 0⟩ (Vec3.truncate ⟨60, 80, 0⟩) ≤ WEAPON_RADIUS := by
    rw [show Vec3.truncate ⟨60, 80, 0⟩ = (⟨60, 80⟩ : Vec2) from rfl,
      Vec2.distance_eval 100 (by norm_num) (by norm_num)]
    norm_num [WEAPON_RADIUS, MAGNET_RADIUS]
  exact (combat_hit_resolution ⟨false, false, false, false, false, false, true, false⟩
      ⟨0, 0⟩ ⟨ENEMY_COLOR, ⟨60, 80, 0⟩, ⟨0, 0⟩, ⟨10, 10⟩⟩ hd rfl).1
    (by rw [DAMAGE_AS_I32_eq]; norm_num)

/-- C2 counterexample: player at the origin, enemy at `(100,0,0)`, pull
active, both axis gates pass.  The speed actually written is `247.5`, while
the claimed `ENEMY_SPEED + MAGNET_FORCE * (MAGNET_RADIUS / distance)` is
`250`: the source multiplies the components by `VELOCITY_DRAG = 0.99`
(main.rs:478-479), so the resulting speed is NOT the claimed target speed. -/
theorem magnet_speed_counterexample :
    (pull_push_enemy ⟨0, 0, 0⟩ ⟨ENEMY_COLOR, ⟨100, 0, 0⟩, ⟨0, 0⟩, ⟨10, 10⟩⟩
        false).vel.length = 247.5 ∧
      magnet_target_speed
        ((magnet_direction ⟨0, 0, 0⟩ ⟨100, 0, 0⟩ false).length) = 250 ∧
      (pull_push_enemy ⟨0, 0, 0⟩ ⟨ENEMY_COLOR, ⟨100, 0, 0⟩, ⟨0, 0⟩, ⟨10, 10⟩⟩
          false).vel.length ≠
        magnet_target_speed
          ((magnet_direction ⟨0, 0, 0⟩ ⟨100, 0, 0⟩ false).length) := by
  have hts : magnet_target_speed
      ((magnet_direction ⟨0, 0, 0⟩ ⟨100, 0, 0⟩ false).length) = 250 := by
    rw [magnet_direction_length_at_100]
    unfold magnet_target_speed
    norm_num [ENEMY_SPEED, MAGNET_FORCE, MAGNET_RADIUS]
  have hv := pull_push_enemy_vel_in_radius ⟨0, 0, 0⟩
    ⟨ENEMY_COLOR, ⟨100, 0, 0⟩, ⟨0, 0⟩, ⟨10, 10⟩⟩ false point_in_radius_at_100
  rw [if_pos magnet_writes_x_at_100, if_pos magnet_writes_y_at_100,
    magnet_target_at_100] at hv
  have hl : (pull_push_enemy ⟨0, 0, 0⟩ ⟨ENEMY_COLOR, ⟨100, 0, 0⟩, ⟨0, 0⟩, ⟨10, 10⟩⟩
      false).vel.length = 247.5 := by
    rw [hv]
    show Real.sqrt ((-247.5 : ℝ) * -247.5 + 0 * 0) = 247.5
    exact sqrt_eval 247.5 (by norm_num) (by norm_num)
  refine ⟨hl, hts, ?_⟩
  rw [hl, hts]
  norm_num

/-- C2 (amended): for an enemy strictly inside the magnet radius at the
player's z level, with a nonzero direction and both axis gates passing, the
force-field writes velocity `normalized_direction * target_speed *
VELOCITY_DRAG`, whose resulting speed is `VELOCITY_DRAG * (ENEMY_SPEED +
MAGNET_FORCE * (MAGNET_RADIUS / distance))` — the claimed formula damped by
the factor `VELOCITY_DRAG = 0.99`. -/
theorem magnet_velocity_amended (p : Vec3) (e : EnemyState) (is_push : Bool)
    (hin : point_in_radius e.translation.truncate p.truncate MAGNET_RADIUS)
    (hz : e.translation.z = p.z)
    (hd : 0 < (magnet_direction p e.translation is_push).length)
    (hwx : magnet_writes_x p e.translation is_push)
    (hwy : magnet_writes_y p e.translation is_push) :
    (pull_push_enemy p e is_push).vel = magnet_target p e.translation is_push ∧
      (pull_push_enemy p e is_push).vel.length =
        VELOCITY_DRAG *
          magnet_target_speed (magnet_direction p e.translation is_push).length := by
  have hv := pull_push_enemy_vel_in_radius p e is_push hin
  rw [if_pos hwx, if_pos hwy] at hv
  have hv2 : (pull_push_enemy p e is_push).vel =
      magnet_target p e.translation is_push := hv
  exact ⟨hv2, by rw [hv2]; exact magnet_target_length p e.translation is_push hz hd⟩

/-- Witness for the amended C2 theorem at player `(0,0,0)`, enemy
`(100,0,0)`, pull: written velocity `(-247.5, 0)` of length `0.99 * 250`. -/
theorem magnet_velocity_amended_witness :
    (pull_push_enemy ⟨0, 0, 0⟩ ⟨ENEMY_COLOR, ⟨100, 0, 0⟩, ⟨0, 0⟩, ⟨20, 10⟩⟩
        false).vel = magnet_target ⟨0, 0, 0⟩ ⟨100, 0, 0⟩ false ∧
      (pull_push_enemy ⟨0, 0, 0⟩ ⟨ENEMY_COLOR, ⟨100, 0, 0⟩, ⟨0, 0⟩, ⟨20, 10⟩⟩
          false).vel.length =
        VELOCITY_DRAG *
          magnet_target_speed (magnet_direction ⟨0, 0, 0⟩ ⟨100, 0, 0⟩ false).length :=
  magnet_velocity_amended ⟨0, 0, 0⟩ ⟨ENEMY_COLOR, ⟨100, 0, 0⟩, ⟨0, 0⟩, ⟨20, 10⟩⟩
    false point_in_radius_at_100 rfl
    (by rw [magnet_direction_length_at_100]; norm_num)
    magnet_writes_x_at_100 magnet_writes_y_at_100

/-- Push-direction evaluation at player `(0,0,0)`, enemy `(100,0,0)`:
direction `(100,0,0)`, distance 100. -/
theorem magnet_direction_length_at_100_push :
    (magnet_direction ⟨0, 0, 0⟩ ⟨100, 0, 0⟩ true).length = 100 := by
  have hsqrt : Real.sqrt
      (((100 : ℝ) - 0) * (100 - 0) + (0 - 0) * (0 - 0) + (0 - 0) * (0 - 0)) = 100 :=
    sqrt_eval 100 (by norm_num) (by norm_num)
  unfold magnet_direction Vec3.length
  simp only [if_true, Vec3.sub_x, Vec3.sub_y, Vec3.sub_z]
  exact hsqrt

theorem magnet_target_at_100_push :
    magnet_target ⟨0, 0, 0⟩ ⟨100, 0, 0⟩ true = ⟨247.5, 0⟩ := by
  have hsqrt : Real.sqrt
      (((100 : ℝ) - 0) * (100 - 0) + (0 - 0) * (0 - 0) + (0 - 0) * (0 - 0)) = 100 :=
    sqrt_eval 100 (by norm_num) (by norm_num)
  unfold magnet_target magnet_direction Vec3.normalize Vec3.length magnet_target_speed
  simp only [if_true, Vec3.sub_x, Vec3.sub_y, Vec3.sub_z]
  rw [hsqrt]
  norm_num [ENEMY_SPEED, MAGNET_FORCE, MAGNET_RADIUS, VELOCITY_DRAG, Vec2.mk.injEq]

theorem magnet_writes_x_at_100_push : magnet_writes_x ⟨0, 0, 0⟩ ⟨100, 0, 0⟩ true := by
  unfold magnet_writes_x
  rw [magnet_target_at_100_push]
  show (100 : ℝ) + 247.5 > LEFT_WALL ∧ (100 : ℝ) + 247.5 < RIGHT_WALL
  norm_num [LEFT_WALL, RIGHT_WALL]

/-- C8: when the pull key and the push key are both held in the same tick,
`magnet` applies the pull update and then the push update unconditionally,
so each enemy ends the tick as push-after-pull; for an enemy inside the
radius, every axis whose push gate passes finally stores the push-direction
target value. -/
theorem push_overrides_pull (input : InputState) (player : PlayerState)
    (pre post : List EnemyState) (e : EnemyState)
    (hq : input.q_pressed = true) (he : input.e_pressed = true)
    (hin : point_in_radius e.translation.truncate player.translation.truncate
      MAGNET_RADIUS) :
    ((magnet input player (pre ++ e :: post)).2.get? pre.length =
      some (pull_push_enemy player.translation
        (pull_push_enemy player.translation { e with color := ENEMY_COLOR } false)
        true)) ∧
      (magnet_writes_x player.translation e.translation true →
        ((magnet input player (pre ++ e :: post)).2.get? pre.length).map
          (fun x => x.vel.x) =
          some (magnet_target player.translation e.translation true).x) ∧
      (magnet_writes_y player.translation e.translation true →
        ((magnet input player (pre ++ e :: post)).2.get? pre.length).map
          (fun x => x.vel.y) =
          some (magnet_target player.translation e.translation true).y) := by
  have h1 : (magnet input player (pre ++ e :: post)).2.get? pre.length =
      some (pull_push_enemy player.translation
        (pull_push_enemy player.translation { e with color := ENEMY_COLOR } false)
        true) := by
    simp only [magnet, hq, he, eq_self_iff_true, if_true]
    rw [List.map_map, List.map_map, get?_map_append_cons]
    rfl
  have htr : (pull_push_enemy player.translation { e with color := ENEMY_COLOR }
      false).translation = e.translation :=
    pull_push_enemy_translation player.translation _ false
  have hv := pull_push_enemy_vel_in_radius player.translation
    (pull_push_enemy player.translation { e with color := ENEMY_COLOR } false) true
    (by rw [htr]; exact hin)
  rw [htr] at hv
  refine ⟨h1, ?_, ?_⟩
  · intro hwx
    rw [h1, Option.map_some', hv, if_pos hwx]
  · intro hwy
    rw [h1, Option.map_some', hv, if_pos hwy]

/-- Witness for the C8 theorem: both keys held, player at the origin, one
enemy at `(100,0,0)`; the stored x velocity is the push target. -/
theorem push_overrides_pull_witness :
    ((magnet ⟨true, true, false, false, false, false, false, false⟩
        ⟨false, ⟨0, 0, 0⟩⟩ [⟨ENEMY_COLOR, ⟨100, 0, 0⟩, ⟨0, 0⟩, ⟨10, 10⟩⟩]).2.get?
        0).map (fun x => x.vel.x) =
      some (magnet_target ⟨0, 0, 0⟩ ⟨100, 0, 0⟩ true).x :=
  (push_overrides_pull ⟨true, true, false, false, false, false, false, false⟩
      ⟨false, ⟨0, 0, 0⟩⟩ [] [] ⟨ENEMY_COLOR, ⟨100, 0, 0⟩, ⟨0, 0⟩, ⟨10, 10⟩⟩
      rfl rfl point_in_radius_at_100).2.1
    magnet_writes_x_at_100_push

/-- C4: the collision system is velocity-only — it never writes any
entity's translation (nor the player or score) — and a side response
reflects the perpendicular velocity component only when it points into the
surface: an enemy overlapping the left wall from inside the arena is
classified `Collision::Right` (it hit the wall's right side); with inbound
velocity `(-50, 0)` the response yields `(50, 0)`, with outbound `(50, 0)`
it is unchanged, and in general each side response is the identity whenever
the perpendicular component points away from (or along) the surface. -/
theorem collision_velocity_only_reflect_inbound :
    (∀ w : World, (check_for_collisions w).player = w.player ∧
      (check_for_collisions w).enemies.map EnemyState.translation =
        w.enemies.map EnemyState.translation ∧
      (check_for_collisions w).score = w.score) ∧
      collide ⟨-444, 0, 0⟩ ENEMY_SIZE (wall_collider WallLocation.Left).translation
        (wall_collider WallLocation.Left).scale2 = some Collision.Right ∧
      collision_response Collision.Right ⟨-50, 0⟩ = ⟨50, 0⟩ ∧
      collision_response Collision.Right ⟨50, 0⟩ = ⟨50, 0⟩ ∧
      (∀ v : Vec2, 0 ≤ v.x → collision_response Collision.Right v = v) ∧
      (∀ v : Vec2, v.x ≤ 0 → collision_response Collision.Left v = v) ∧
      (∀ v : Vec2, v.y ≤ 0 → collision_response Collision.Bottom v = v) ∧
      (∀ v : Vec2, 0 ≤ v.y → collision_response Collision.Top v = v) ∧
      ∀ v : Vec2, collision_response Collision.Inside v = v := by
  refine ⟨?_, ?_, ?_, ?_, ?_, ?_, ?_, ?_, ?_⟩
  · intro w
    refine ⟨rfl, ?_, rfl⟩
    unfold check_for_collisions
    rw [List.map_map]
    rfl
  · unfold collide wall_collider WallLocation.position WallLocation.size ENEMY_SIZE
    norm_num [LEFT_WALL, TOP_WALL, BOTTOM_WALL, WALL_THICKNESS]
  · unfold collision_response
    norm_num
  · unfold collision_response
    norm_num
  · intro v hv
    unfold collision_response
    dsimp only
    split_ifs with h1 h2 <;>
      first | rfl | (exfalso; simp_all; done) | (exfalso; norm_num at *; linarith)
  · intro v hv
    unfold collision_response
    dsimp only
    split_ifs with h1 h2 <;>
      first | rfl | (exfalso; simp_all; done) | (exfalso; norm_num at *; linarith)
  · intro v hv
    unfold collision_response
    dsimp only
    split_ifs with h1 h2 <;>
      first | rfl | (exfalso; simp_all; done) | (exfalso; norm_num at *; linarith)
  · intro v hv
    unfold collision_response
    dsimp only
    split_ifs with h1 h2 <;>
      first | rfl | (exfalso; simp_all; done) | (exfalso; norm_num at *; linarith)
  · intro v
    unfold collision_response
    dsimp only
    split_ifs with h1 <;> first | rfl | (exfalso; simp_all)

/-- Witness for the C4 theorem: the outbound-identity cases applied at the
concrete velocity `(5, 7)` and the position-preservation part applied at a
concrete one-enemy world. -/
theorem collision_velocity_only_reflect_inbound_witness :
    collision_response Collision.Right ⟨5, 7⟩ = ⟨5, 7⟩ ∧
      (check_for_collisions
          ⟨⟨false, ⟨0, 0, 0⟩⟩, [⟨ENEMY_COLOR, ⟨100, 0, 0⟩, ⟨0, 0⟩, ⟨10, 10⟩⟩],
            0⟩).enemies.map EnemyState.translation = [⟨100, 0, 0⟩] :=
  ⟨collision_velocity_only_reflect_inbound.2.2.2.2.1 ⟨5, 7⟩ (by norm_num),
    (collision_velocity_only_reflect_inbound.1
      ⟨⟨false, ⟨0, 0, 0⟩⟩, [⟨ENEMY_COLOR, ⟨100, 0, 0⟩, ⟨0, 0⟩, ⟨10, 10⟩⟩], 0⟩).2.1⟩

/-- The AABB test of an enemy-sized box against itself: the overlap holds
but neither side condition does on either axis, so it classifies `Inside`. -/
theorem collide_self_inside (p : Vec3) :
    collide p ENEMY_SIZE p ENEMY_SIZE = some Collision.Inside := by
  unfold collide ENEMY_SIZE
  dsimp only
  rw [if_pos (⟨by linarith, by linarith, by linarith, by linarith⟩ :
    _ ∧ _ ∧ _ ∧ _)]
  split_ifs <;> first | rfl | (exfalso; simp_all)

/-- The `Inside` arm of the bounce response does nothing. -/
theorem collision_response_inside (v : Vec2) :
    collision_response Collision.Inside v = v := by
  unfold collision_response
  dsimp only
  split_ifs with h <;> first | rfl | (exfalso; simp_all)

/-- Testing an enemy against its own collider entry leaves the velocity
untouched. -/
theorem check_enemy_collider_self (t : Vec3) (v : Vec2) :
    check_enemy_collider t v ⟨t, ENEMY_SIZE⟩ = v := by
  unfold check_enemy_collider
  rw [collide_self_inside]
  exact collision_response_inside v

/-- C10: every enemy's own collider entry (same translation, size
`ENEMY_SIZE`) is in the collider list the collision system tests it
against — alongside the walls, the player and the other enemies — and the
self-pair classifies as an `Inside` overlap whose response changes nothing:
folding the collider list with the enemy's own entry inserted anywhere
yields exactly the velocity obtained without it. -/
theorem self_collision_harmless :
    (∀ p : Vec3, collide p ENEMY_SIZE p ENEMY_SIZE = some Collision.Inside) ∧
      (∀ v : Vec2, collision_response Collision.Inside v = v) ∧
      (∀ (w : World) (e : EnemyState), e ∈ w.enemies →
        (⟨e.translation, ENEMY_SIZE⟩ : ColliderView) ∈ world_colliders w) ∧
      ∀ (l1 l2 : List ColliderView) (t : Vec3) (v : Vec2),
        check_for_collisions_one (l1 ++ ⟨t, ENEMY_SIZE⟩ :: l2) t v =
          check_for_collisions_one (l1 ++ l2) t v := by
  refine ⟨collide_self_inside, collision_response_inside, ?_, ?_⟩
  · intro w e he
    unfold world_colliders
    refine List.mem_cons_of_mem _ (List.mem_append_right _ ?_)
    exact List.mem_map_of_mem _ he
  · intro l1 l2 t v
    unfold check_for_collisions_one
    rw [List.foldl_append, List.foldl_append, List.foldl_cons,
      check_enemy_collider_self]

/-- Witness for the C10 theorem at a concrete one-enemy world: the enemy's
own collider entry is in the world's collider list, and the self-test is
classified `Inside` and leaves a concrete velocity unchanged. -/
theorem self_collision_harmless_witness :
    ((⟨⟨100, 0, 0⟩, ENEMY_SIZE⟩ : ColliderView) ∈
        world_colliders
          ⟨⟨false, ⟨0, 0, 0⟩⟩, [⟨ENEMY_COLOR, ⟨100, 0, 0⟩, ⟨0, 0⟩, ⟨10, 10⟩⟩], 0⟩) ∧
      collide ⟨100, 0, 0⟩ ENEMY_SIZE ⟨100, 0, 0⟩ ENEMY_SIZE =
        some Collision.Inside ∧
      check_for_collisions_one ([] ++ ⟨⟨100, 0, 0⟩, ENEMY_SIZE⟩ :: []) ⟨100, 0, 0⟩
          ⟨-50, 0⟩ =
        check_for_collisions_one ([] ++ []) ⟨100, 0, 0⟩ ⟨-50, 0⟩ :=
  ⟨self_collision_harmless.2.2.1
      ⟨⟨false, ⟨0, 0, 0⟩⟩, [⟨ENEMY_COLOR, ⟨100, 0, 0⟩, ⟨0, 0⟩, ⟨10, 10⟩⟩], 0⟩
      ⟨ENEMY_COLOR, ⟨100, 0, 0⟩, ⟨0, 0⟩, ⟨10, 10⟩⟩ (List.mem_singleton.mpr rfl),
    self_collision_harmless.1 ⟨100, 0, 0⟩,
    self_collision_harmless.2.2.2 [] [] ⟨100, 0, 0⟩ ⟨-50, 0⟩⟩

/-- The score contribution of one combat iteration is 1 exactly when the
kill condition holds, else 0. -/
theorem combat_enemy_step_score (tr : Bool) (pp : Vec2) (e : EnemyState) :
    (combat_enemy_step tr pp e).2.1 = if combat_kills tr pp e then 1 else 0 := by
  unfold combat_enemy_step combat_kills
  dsimp only
  split_ifs <;> first | rfl | (exfalso; tauto)

/-- A killed enemy is despawned by its combat iteration. -/
theorem combat_enemy_step_kills_none (tr : Bool) (pp : Vec2) (e : EnemyState)
    (h : combat_kills tr pp e) : (combat_enemy_step tr pp e).1 = none := by
  unfold combat_enemy_step
  rw [if_pos ⟨h.1, h.2.1⟩, if_pos h.2.2]

/-- The combat loop's score increment counts exactly the killed enemies. -/
theorem combat_loop_score (tr : Bool) (pp : Vec2) (l : List EnemyState) :
    (combat_loop tr pp l).2.1 =
      (l.filter fun e => decide (combat_kills tr pp e)).length := by
  induction l with
  | nil => rfl
  | cons e rest ih =>
    have h : (combat_loop tr pp (e :: rest)).2.1 =
        (combat_enemy_step tr pp e).2.1 + (combat_loop tr pp rest).2.1 := rfl
    rw [h, combat_enemy_step_score, ih, List.filter_cons]
    by_cases hk : combat_kills tr pp e
    · rw [if_pos hk, if_pos (decide_eq_true hk), List.length_cons]
      omega
    · rw [if_neg hk, if_neg (by simp [hk])]
      omega

/-- The combat loop's surviving list is the pointwise outcome of the
per-enemy iterations: killed enemies are removed, the rest kept. -/
theorem combat_loop_survivors (tr : Bool) (pp : Vec2) (l : List EnemyState) :
    (combat_loop tr pp l).1 =
      l.filterMap fun e => (combat_enemy_step tr pp e).1 := by
  induction l with
  | nil => rfl
  | cons e rest ih =>
    have h : (combat_loop tr pp (e :: rest)).1 =
        (combat_enemy_step tr pp e).1.toList ++ (combat_loop tr pp rest).1 := rfl
    rw [h, ih, List.filterMap_cons]
    cases hs : (combat_enemy_step tr pp e).1 <;> simp [hs]

/-- `combat_system` adds exactly the number of kills to the score. -/
theorem combat_system_score (input : InputState) (w : World) :
    (combat_system input w).1.score =
      w.score + (w.enemies.filter fun e =>
        decide (combat_kills (combat_trigger input)
          w.player.translation.truncate e)).length := by
  have h : (combat_system input w).1.score =
      w.score + (combat_loop (combat_trigger input)
        w.player.translation.truncate w.enemies).2.1 := rfl
  rw [h, combat_loop_score]

/-- One tick never decreases the score. -/
theorem tick_score_le (input : InputState) (w : World) :
    w.score ≤ (tick input w).1.score := by
  have h : (tick input w).1.score =
      (combat_system input
        (move_player_system input (magnet_system input w))).1.score := rfl
  rw [h, combat_system_score]
  exact Nat.le_add_right _ _

/-- C6: the score is mutated only by the combat system — magnet, player
movement, velocity integration and collision resolution leave it unchanged
(collision even holds the scoreboard mutably but never writes it) — and one
combat pass adds exactly the number of enemies whose health reached ≤ 0 in
that pass, each of which is removed from the enemy list in the same pass so
the same death is never counted twice; consequently the score is
monotonically non-decreasing across ticks. -/
theorem score_monotone_once_per_kill :
    (∀ (tr : Bool) (pp : Vec2) (l : List EnemyState),
        (combat_loop tr pp l).2.1 =
          (l.filter fun e => decide (combat_kills tr pp e)).length) ∧
      (∀ (tr : Bool) (pp : Vec2) (l : List EnemyState),
        (combat_loop tr pp l).1 =
          l.filterMap fun e => (combat_enemy_step tr pp e).1) ∧
      (∀ (tr : Bool) (pp : Vec2) (e : EnemyState),
        combat_kills tr pp e → (combat_enemy_step tr pp e).1 = none) ∧
      (∀ (input : InputState) (w : World),
        (combat_system input w).1.score =
          w.score + (w.enemies.filter fun e =>
            decide (combat_kills (combat_trigger input)
              w.player.translation.truncate e)).length) ∧
      (∀ (input : InputState) (w : World),
        (magnet_system input w).score = w.score ∧
          (move_player_system input w).score = w.score ∧
          (apply_velocity_system w).score = w.score ∧
          (check_for_collisions w).score = w.score) ∧
      (∀ (input : InputState) (w : World), w.score ≤ (tick input w).1.score) ∧
      ∀ (inputs : ℕ → InputState) (w : World) (n m : ℕ), n ≤ m →
        (run_ticks inputs w n).score ≤ (run_ticks inputs w m).score := by
  refine ⟨combat_loop_score, combat_loop_survivors, combat_enemy_step_kills_none,
    combat_system_score, fun input w => ⟨rfl, rfl, rfl, rfl⟩, tick_score_le, ?_⟩
  intro inputs w n m hnm
  induction hnm with
  | refl => exact le_rfl
  | step h ih =>
    exact le_trans ih (tick_score_le _ _)

/-- Witness for the C6 theorem: a lethal concrete hit despawns its enemy,
and a concrete one-tick run does not decrease the score. -/
theorem score_monotone_once_per_kill_witness :
    (combat_enemy_step true ⟨0, 0⟩
        ⟨ENEMY_COLOR, ⟨60, 80, 0⟩, ⟨0, 0⟩, ⟨10, 10⟩⟩).1 = none ∧
      (run_ticks (fun _ => ⟨false, false, false, false, false, false, false, false⟩)
          ⟨⟨false, ⟨0, 0, 0⟩⟩, [], 7⟩ 0).score ≤
        (run_ticks (fun _ => ⟨false, false, false, false, false, false, false, false⟩)
          ⟨⟨false, ⟨0, 0, 0⟩⟩, [], 7⟩ 1).score := by
  have hd : Vec2.distance ⟨0, 0⟩ (Vec3.truncate ⟨60, 80, 0⟩) ≤ WEAPON_RADIUS := by
    rw [show Vec3.truncate ⟨60, 80, 0⟩ = (⟨60, 80⟩ : Vec2) from rfl,
      Vec2.distance_eval 100 (by norm_num) (by norm_num)]
    norm_num [WEAPON_RADIUS, MAGNET_RADIUS]
  exact ⟨score_monotone_once_per_kill.2.2.1 true ⟨0, 0⟩
      ⟨ENEMY_COLOR, ⟨60, 80, 0⟩, ⟨0, 0⟩, ⟨10, 10⟩⟩
      ⟨hd, rfl, by rw [DAMAGE_AS_I32_eq]; norm_num⟩,
    score_monotone_once_per_kill.2.2.2.2.2.2
      (fun _ => ⟨false, false, false, false, false, false, false, false⟩)
      ⟨⟨false, ⟨0, 0, 0⟩⟩, [], 7⟩ 0 1 (by norm_num)⟩

/-- Ticking a fresh 0.05 s repeating timer by 0.1 s: it finishes, two whole
periods elapse, and the elapsed time wraps to 0. -/
theorem timer_tick_eval_two : timer_tick 0 (1 / 10) = (0, true, 2) := by
  unfold timer_tick EXPLOSION_PERIOD
  rw [if_pos (by norm_num)]
  have h2 : ((0 : ℝ) + 1 / 10) / (0.05 : ℝ) = ((2 : ℤ) : ℝ) := by norm_num
  rw [h2, Int.floor_intCast, show Int.toNat 2 = 2 from rfl]
  norm_num [Prod.ext_iff]

/-- A delta of at least one period finishes the timer and leaves a
nonnegative wrapped elapsed time. -/
theorem timer_tick_pos (e d : ℝ) (he : 0 ≤ e) (hd : EXPLOSION_PERIOD ≤ d) :
    (timer_tick e d).2.1 = true ∧ 0 ≤ (timer_tick e d).1 := by
  have hP : (0 : ℝ) < EXPLOSION_PERIOD := by norm_num [EXPLOSION_PERIOD]
  have hT : EXPLOSION_PERIOD ≤ e + d := by linarith
  unfold timer_tick
  rw [if_pos (show e + d ≥ EXPLOSION_PERIOD from hT)]
  refine ⟨rfl, ?_⟩
  have hq : (0 : ℝ) ≤ (e + d) / EXPLOSION_PERIOD :=
    div_nonneg (by linarith) (le_of_lt hP)
  have hfl : 0 ≤ ⌊(e + d) / EXPLOSION_PERIOD⌋ := Int.floor_nonneg.mpr hq
  have hcast : ((⌊(e + d) / EXPLOSION_PERIOD⌋.toNat : ℕ) : ℝ) =
      ((⌊(e + d) / EXPLOSION_PERIOD⌋ : ℤ) : ℝ) := by
    exact_mod_cast congrArg (fun z : ℤ => (z : ℝ)) (Int.toNat_of_nonneg hfl)
  show 0 ≤ e + d - EXPLOSION_PERIOD * ((⌊(e + d) / EXPLOSION_PERIOD⌋.toNat : ℕ) : ℝ)
  rw [hcast]
  have h1 : (⌊(e + d) / EXPLOSION_PERIOD⌋ : ℝ) ≤ (e + d) / EXPLOSION_PERIOD :=
    Int.floor_le _
  have h3 : EXPLOSION_PERIOD * ((⌊(e + d) / EXPLOSION_PERIOD⌋ : ℤ) : ℝ) ≤
      EXPLOSION_PERIOD * ((e + d) / EXPLOSION_PERIOD) :=
    mul_le_mul_of_nonneg_left h1 (le_of_lt hP)
  have h4 : EXPLOSION_PERIOD * ((e + d) / EXPLOSION_PERIOD) = e + d := by
    field_simp
  linarith

/-- A delta that does not complete the running period accumulates without
finishing. -/
theorem timer_tick_not_finished (e d : ℝ) (h : e + d < EXPLOSION_PERIOD) :
    timer_tick e d = (e + d, false, 0) := by
  unfold timer_tick
  rw [if_neg (not_le.mpr h)]

/-- When the timer finished this frame, the animation step increments the
index by one and despawns exactly when the new index reaches the sheet
length. -/
theorem explosion_step_finished (d : ℝ) (s : ExplosionState)
    (h : (timer_tick s.elapsed d).2.1 = true) :
    explosion_animation_step d s =
      if s.index + 1 ≥ EXPLOSION_LEN then none
      else some ⟨(timer_tick s.elapsed d).1, s.index + 1⟩ := by
  unfold explosion_animation_step
  dsimp only
  rw [h, if_pos rfl]

/-- When the timer did not finish, the step only accumulates elapsed time. -/
theorem explosion_step_not_finished (d : ℝ) (s : ExplosionState)
    (h : (timer_tick s.elapsed d).2.1 = false) :
    explosion_animation_step d s = some ⟨(timer_tick s.elapsed d).1, s.index⟩ := by
  unfold explosion_animation_step
  dsimp only
  rw [h, if_neg (by simp)]

/-- A despawned explosion stays despawned for the rest of the run. -/
theorem explosion_run_none_absorbs (ds : List ℝ) :
    ds.foldl (fun acc d => acc.bind (explosion_animation_step d)) none = none := by
  induction ds with
  | nil => rfl
  | cons d rest ih => simpa using ih

/-- Run invariant for the explosion animation: from a valid timer state,
when every frame delta completes at least one period, each frame advances
the index by exactly one and the entity is despawned exactly on the frame
where the index first reaches `EXPLOSION_LEN` — not before and not after. -/
theorem explosion_run_spec (ds : List ℝ) :
    ∀ s : ExplosionState, 0 ≤ s.elapsed → (∀ d ∈ ds, EXPLOSION_PERIOD ≤ d) →
      (s.index + ds.length < EXPLOSION_LEN →
        ∃ e1, explosion_run ds s = some ⟨e1, s.index + ds.length⟩ ∧ 0 ≤ e1) ∧
      (s.index < EXPLOSION_LEN → EXPLOSION_LEN ≤ s.index + ds.length →
        explosion_run ds s = none) := by
  induction ds with
  | nil =>
    intro s hs _
    constructor
    · intro _
      exact ⟨s.elapsed, by simp [explosion_run], hs⟩
    · intro hlt hge
      simp only [List.length_nil] at hge
      omega
  | cons d rest ih =>
    intro s hs hall
    have hd : EXPLOSION_PERIOD ≤ d := hall d (List.mem_cons_self d rest)
    have hrest : ∀ x ∈ rest, EXPLOSION_PERIOD ≤ x :=
      fun x hx => hall x (List.mem_cons_of_mem d hx)
    have hfin := timer_tick_pos s.elapsed d hs hd
    have hstep := explosion_step_finished d s hfin.1
    by_cases hidx : s.index + 1 ≥ EXPLOSION_LEN
    · rw [if_pos hidx] at hstep
      have hnone : explosion_run (d :: rest) s = none := by
        show rest.foldl (fun acc x => acc.bind (explosion_animation_step x))
          ((some s).bind (explosion_animation_step d)) = none
        rw [Option.some_bind, hstep]
        exact explosion_run_none_absorbs rest
      constructor
      · intro hfar
        simp only [List.length_cons] at hfar
        omega
      · intro _ _
        exact hnone
    · rw [if_neg hidx] at hstep
      have hcons : explosion_run (d :: rest) s =
          explosion_run rest ⟨(timer_tick s.elapsed d).1, s.index + 1⟩ := by
        show rest.foldl (fun acc x => acc.bind (explosion_animation_step x))
          ((some s).bind (explosion_animation_step d)) = _
        rw [Option.some_bind, hstep]
        rfl
      have hih := ih ⟨(timer_tick s.elapsed d).1, s.index + 1⟩ hfin.2 hrest
      constructor
      · intro hfar
        simp only [List.length_cons] at hfar
        obtain ⟨e1, hrun, he1⟩ := hih.1 (by dsimp only; omega)
        refine ⟨e1, ?_, he1⟩
        rw [hcons, hrun]
        have harith : s.index + 1 + rest.length = s.index + (rest.length + 1) := by
          omega
        dsimp only at harith ⊢
        rw [harith]
        simp only [List.length_cons]
      · intro _ hge
        simp only [List.length_cons] at hge
        rw [hcons]
        exact hih.2 (by dsimp only; omega) (by dsimp only; omega)

/-- C7 counterexample: a frame whose delta spans two whole 0.05 s periods
(0.1 s on a fresh timer) completes 2 periods in that tick, yet
`explosion_animation_system` advances the frame index by only 1 — the index
does not increase by exactly 1 per elapsed timer period. -/
theorem explosion_per_period_counterexample :
    (timer_tick (0 : ℝ) (1 / 10)).2.2 = 2 ∧
      explosion_animation_step (1 / 10) ⟨0, 0⟩ = some ⟨0, 1⟩ ∧ (1 : ℕ) ≠ 2 := by
  refine ⟨by rw [timer_tick_eval_two], ?_, by norm_num⟩
  have h := explosion_step_finished (1 / 10) ⟨0, 0⟩
    (by rw [timer_tick_eval_two])
  rw [timer_tick_eval_two] at h
  rw [h, if_neg (by norm_num [EXPLOSION_LEN])]

/-- C7 (amended): per system tick, the frame index increases by exactly 1
when the timer finished that tick (whether one or several periods elapsed)
and is unchanged otherwise; and over any run whose frame deltas each
complete at least one period, an explosion spawned at index 0 survives
exactly while fewer than `EXPLOSION_LEN` such ticks have passed and is
despawned exactly when the index first reaches `EXPLOSION_LEN` — not
before and not after; the sequence is strictly terminal. -/
theorem explosion_animation_amended :
    (∀ (d : ℝ) (s : ExplosionState),
        ((timer_tick s.elapsed d).2.1 = true →
          explosion_animation_step d s =
            if s.index + 1 ≥ EXPLOSION_LEN then none
            else some ⟨(timer_tick s.elapsed d).1, s.index + 1⟩) ∧
          ((timer_tick s.elapsed d).2.1 = false →
            explosion_animation_step d s =
              some ⟨(timer_tick s.elapsed d).1, s.index⟩)) ∧
      ∀ ds : List ℝ, (∀ d ∈ ds, EXPLOSION_PERIOD ≤ d) →
        (ds.length < EXPLOSION_LEN →
          ∃ e1, explosion_run ds ⟨0, 0⟩ = some ⟨e1, ds.length⟩) ∧
        (EXPLOSION_LEN ≤ ds.length → explosion_run ds ⟨0, 0⟩ = none) := by
  refine ⟨fun d s => ⟨explosion_step_finished d s, explosion_step_not_finished d s⟩,
    fun ds hall => ?_⟩
  have h := explosion_run_spec ds ⟨0, 0⟩ le_rfl hall
  constructor
  · intro hlt
    obtain ⟨e1, hrun, -⟩ := h.1 (by simpa using hlt)
    exact ⟨e1, by simpa using hrun⟩
  · intro hge
    exact h.2 (by norm_num [EXPLOSION_LEN]) (by simpa using hge)

/-- Witness for the amended C7 theorem: sixteen 0.05 s frames despawn the
explosion, fifteen leave it alive at index 15; a finished concrete tick
advances the index by exactly one. -/
theorem explosion_animation_amended_witness :
    (∃ e1, explosion_run (List.replicate 15 (1 / 20)) ⟨0, 0⟩ = some ⟨e1, 15⟩) ∧
      explosion_run (List.replicate 16 (1 / 20)) ⟨0, 0⟩ = none ∧
      explosion_animation_step (1 / 10) ⟨0, 0⟩ =
        if (0 : ℕ) + 1 ≥ EXPLOSION_LEN then none
        else some ⟨(timer_tick 0 (1 / 10)).1, 0 + 1⟩ := by
  have hall15 : ∀ d ∈ List.replicate 15 ((1 : ℝ) / 20), EXPLOSION_PERIOD ≤ d := by
    intro d hd
    rw [List.eq_of_mem_replicate hd]
    norm_num [EXPLOSION_PERIOD]
  have hall16 : ∀ d ∈ List.replicate 16 ((1 : ℝ) / 20), EXPLOSION_PERIOD ≤ d := by
    intro d hd
    rw [List.eq_of_mem_replicate hd]
    norm_num [EXPLOSION_PERIOD]
  refine ⟨?_, ?_, ?_⟩
  · have h := (explosion_animation_amended.2 (List.replicate 15 (1 / 20)) hall15).1
      (by norm_num [EXPLOSION_LEN])
    simpa using h
  · have h := (explosion_animation_amended.2 (List.replicate 16 (1 / 20)) hall16).2
      (by norm_num [EXPLOSION_LEN])
    simpa using h
  · exact (explosion_animation_amended.1 (1 / 10) ⟨0, 0⟩).1
      (by rw [timer_tick_eval_two])

/-! Evaluation lemmas for the IEEE-style scalars. -/

theorem F.sub_fin (a b : ℝ) : (F.fin a).sub (F.fin b) = F.fin (a - b) := rfl

theorem F.mul_fin (a b : ℝ) : (F.fin a).mul (F.fin b) = F.fin (a * b) := rfl

theorem F.add_fin (a b : ℝ) : (F.fin a).add (F.fin b) = F.fin (a + b) := rfl

theorem F.fin_add_pinf (a : ℝ) : (F.fin a).add F.pinf = F.pinf := rfl

theorem F.fin_add_nan (a : ℝ) : (F.fin a).add F.nan = F.nan := rfl

theorem F.nan_mul (x : F) : F.nan.mul x = F.nan := by cases x <;> rfl

theorem F.sqrtF_fin (a : ℝ) (h : ¬a < 0) :
    F.sqrtF (F.fin a) = F.fin (Real.sqrt a) := by
  show (if a < 0 then F.nan else F.fin (Real.sqrt a)) = F.fin (Real.sqrt a)
  rw [if_neg h]

theorem F.div_fin_zero (a : ℝ) (h : 0 < a) : (F.fin a).div (F.fin 0) = F.pinf := by
  show (if (0 : ℝ) = 0 then
      (if a = 0 then F.nan else if a > 0 then F.pinf else F.ninf)
    else F.fin (a / 0)) = F.pinf
  rw [if_pos rfl, if_neg (ne_of_gt h), if_pos h]

theorem F.fin_mul_pinf_pos (a : ℝ) (h : 0 < a) : (F.fin a).mul F.pinf = F.pinf := by
  show (if a = 0 then F.nan else if a > 0 then F.pinf else F.ninf) = F.pinf
  rw [if_neg (ne_of_gt h), if_pos h]

theorem F.zero_mul_pinf : (F.fin 0).mul F.pinf = F.nan := by
  show (if (0 : ℝ) = 0 then F.nan else if (0 : ℝ) > 0 then F.pinf else F.ninf) = F.nan
  rw [if_pos rfl]

theorem F.not_lt_fin_nan (a : ℝ) : ¬(F.fin a).lt F.nan := fun h => h

theorem F.not_gt_nan_fin (a : ℝ) : ¬F.nan.gt (F.fin a) := fun h => h

/-- The zero direction at coincident finite positions. -/
theorem magnet_direction_f_self (a b c : ℝ) (is_push : Bool) :
    magnet_direction_f ⟨F.fin a, F.fin b, F.fin c⟩ ⟨F.fin a, F.fin b, F.fin c⟩
      is_push = ⟨F.fin 0, F.fin 0, F.fin 0⟩ := by
  unfold magnet_direction_f FVec3.sub
  split_ifs <;> · dsimp only
                  rw [F.sub_fin, F.sub_fin, F.sub_fin]
                  simp [FVec3.mk.injEq]

/-- The length of the zero `F` vector is finite zero. -/
theorem FVec3.length_zero :
    (⟨F.fin 0, F.fin 0, F.fin 0⟩ : FVec3).length = F.fin 0 := by
  unfold FVec3.length
  dsimp only
  rw [F.mul_fin, F.add_fin, F.add_fin, F.sqrtF_fin _ (by norm_num)]
  norm_num

/-- Normalizing the zero `F` vector yields NaN in every component:
`0 * (1/0) = 0 * ∞ = NaN`. -/
theorem FVec3.normalize_zero :
    (⟨F.fin 0, F.fin 0, F.fin 0⟩ : FVec3).normalize = ⟨F.nan, F.nan, F.nan⟩ := by
  unfold FVec3.normalize
  rw [FVec3.length_zero]
  dsimp only
  rw [F.div_fin_zero 1 (by norm_num), F.zero_mul_pinf]

/-- The falloff term at distance zero is `+∞`: `50 * (200 / 0) = 50 * ∞`. -/
theorem magnet_additional_speed_f_zero :
    magnet_additional_speed_f (F.fin 0) = F.pinf := by
  unfold magnet_additional_speed_f
  rw [F.div_fin_zero MAGNET_RADIUS (by norm_num [MAGNET_RADIUS]),
    F.fin_mul_pinf_pos MAGNET_FORCE (by norm_num [MAGNET_FORCE])]

/-- C9 counterexample: with the enemy's position coinciding exactly with the
player's (distance 0) and pull active, the computation is NOT guarded — the
normalized direction is the all-NaN vector, not a zero vector, and the
falloff term is `+∞`, which is no finite (clamped) magnitude at all. -/
theorem magnet_zero_distance_unguarded :
    (magnet_direction_f ⟨F.fin 0, F.fin 0, F.fin 0⟩ ⟨F.fin 0, F.fin 0, F.fin 0⟩
        false).normalize = ⟨F.nan, F.nan, F.nan⟩ ∧
      magnet_additional_speed_f
        ((magnet_direction_f ⟨F.fin 0, F.fin 0, F.fin 0⟩
            ⟨F.fin 0, F.fin 0, F.fin 0⟩ false).length) = F.pinf ∧
      F.nan ≠ F.fin 0 ∧ ∀ m : ℝ, F.pinf ≠ F.fin m := by
  rw [magnet_direction_f_self, FVec3.normalize_zero, FVec3.length_zero,
    magnet_additional_speed_f_zero]
  exact ⟨rfl, rfl, fun h => F.noConfusion h, fun m h => F.noConfusion h⟩

/-- C9 (amended): the source has no guard at distance 0 — the direction
normalizes to NaN components and the falloff term is `+∞` — but the
per-axis arena-bound comparisons evaluate to false on NaN, so neither
velocity axis is written: when the enemy's position coincides exactly with
the player's and pull or push is active, the enemy state is returned
unchanged and no non-finite value reaches its velocity. -/
theorem magnet_zero_distance_no_write (a b c : ℝ) (e : FEnemyState)
    (is_push : Bool) (h : e.translation = ⟨F.fin a, F.fin b, F.fin c⟩) :
    pull_push_enemy_f ⟨F.fin a, F.fin b, F.fin c⟩ e is_push = e := by
  have hdist : FVec2.distance
      (FVec3.truncateF ⟨F.fin a, F.fin b, F.fin c⟩)
      (FVec3.truncateF ⟨F.fin a, F.fin b, F.fin c⟩) = F.fin 0 := by
    unfold FVec2.distance FVec3.truncateF
    dsimp only
    rw [F.sub_fin, F.sub_fin, F.mul_fin, F.mul_fin, F.add_fin,
      F.sqrtF_fin _ (by nlinarith [mul_self_nonneg (a - a), mul_self_nonneg (b - b)])]
    norm_num
  have hdir0 : magnet_direction_f ⟨F.fin a, F.fin b, F.fin c⟩
      ⟨F.fin a, F.fin b, F.fin c⟩ is_push = ⟨F.fin 0, F.fin 0, F.fin 0⟩ :=
    magnet_direction_f_self a b c is_push
  unfold pull_push_enemy_f
  rw [h]
  rw [if_neg (not_not_intro (show point_in_radius_f _ _ _ from by
    unfold point_in_radius_f
    rw [hdist]
    show (0 : ℝ) < MAGNET_RADIUS
    norm_num [MAGNET_RADIUS]))]
  rw [hdir0]
  dsimp only
  rw [FVec3.length_zero, FVec3.normalize_zero, magnet_additional_speed_f_zero,
    F.fin_add_pinf]
  dsimp only
  rw [F.nan_mul, F.nan_mul, F.fin_add_nan, F.fin_add_nan]
  rw [if_neg (fun hm => hm.elim
      (fun hw => F.not_gt_nan_fin LEFT_WALL hw.1)
      (fun hw => F.not_gt_nan_fin BOTTOM_WALL hw.1)),
    if_neg (fun hw => F.not_gt_nan_fin LEFT_WALL hw.1),
    if_neg (fun hw => F.not_gt_nan_fin BOTTOM_WALL hw.1)]
  rw [← h]

/-- Witness for the amended C9 theorem: player and enemy both at the `F`
origin, pull active, concrete velocity `(5, 5)` — the enemy is unchanged. -/
theorem magnet_zero_distance_no_write_witness :
    pull_push_enemy_f ⟨F.fin 0, F.fin 0, F.fin 0⟩
        ⟨ENEMY_COLOR, ⟨F.fin 0, F.fin 0, F.fin 0⟩, ⟨F.fin 5, F.fin 5⟩⟩ false =
      ⟨ENEMY_COLOR, ⟨F.fin 0, F.fin 0, F.fin 0⟩, ⟨F.fin 5, F.fin 5⟩⟩ :=
  magnet_zero_distance_no_write 0 0 0
    ⟨ENEMY_COLOR, ⟨F.fin 0, F.fin 0, F.fin 0⟩, ⟨F.fin 5, F.fin 5⟩⟩ false rfl

end MagnetPve
